import Mathlib

/-!
Verification of the passthrough FUSE filesystem in
`task1_file_systems/fuse_mount_repo/fuse_repo.py`.

The Python code is shallowly embedded: each method of the `Passthrough`
class becomes a Lean function over explicit host-filesystem oracles, and
the `os.path` helpers it relies on (`join`, `normpath`, `relpath`,
`str.lstrip`) are translated from CPython's `posixpath` implementation.
Strings are manipulated through their character lists so that every
definition evaluates inside the kernel.
-/

namespace FuseRepo

/-- Python `s.lstrip("/")`: drop every leading slash character. -/
def lstripSlash (s : String) : String :=
  String.mk (s.data.dropWhile (fun c => c = '/'))

/-- Does the character list `s` begin with the character list `t`? -/
def beginsChars : List Char → List Char → Bool
  | _, [] => true
  | [], _ :: _ => false
  | a :: as, b :: bs => a = b && beginsChars as bs

/-- Python `s.startswith(t)`. -/
def strBegins (s t : String) : Bool :=
  beginsChars s.data t.data

/-- Python `s.endswith("/")`: the last character is a slash. -/
def endsSlash (s : String) : Bool :=
  s.data.getLast? = some '/'

/-- CPython `posixpath.join(a, b)` for two components: if `b` is absolute it
replaces `a`; otherwise it is appended, inserting a separator unless `a` is
empty or already ends in one. -/
def pyJoin (a b : String) : String :=
  if strBegins b "/" then b
  else if a = "" ∨ endsSlash a then a ++ b
  else a ++ "/" ++ b

/-- `Passthrough._full_path`: strip the leading slashes off the virtual path
and join the remainder onto the backing root. -/
def full_path (root p : String) : String :=
  pyJoin root (lstripSlash p)

/-- Split a character list on `'/'`, like Python `s.split("/")`
(the empty string splits to one empty field). -/
def splitAcc (cur : List Char) : List Char → List (List Char)
  | [] => [cur.reverse]
  | c :: rest => if c = '/' then cur.reverse :: splitAcc [] rest else splitAcc (c :: cur) rest

/-- Python `s.split("/")` as a list of strings. -/
def splitSlash (s : String) : List String :=
  (splitAcc [] s.data).map String.mk

/-- Join a list of components with `"/"` separators (Python `"/".join`). -/
def joinWith : List String → String
  | [] => ""
  | [x] => x
  | x :: xs => x ++ "/" ++ joinWith xs

/-- Count of initial slashes retained by `posixpath.normpath` (POSIX keeps
exactly two leading slashes special; one and three-or-more collapse to one). -/
def initialSlashes (p : String) : Nat :=
  if strBegins p "/" then
    if strBegins p "//" ∧ ¬ (strBegins p "///") then 2 else 1
  else 0

/-- One step of `posixpath.normpath`'s component loop: skip empty and `"."`
components, pop a component on `".."` when possible, otherwise append. -/
def normStep (isAbs : Bool) (acc : List String) (comp : String) : List String :=
  if comp = "" ∨ comp = "." then acc
  else if comp ≠ ".." ∨ (isAbs = false ∧ acc = []) ∨ acc.getLast? = some ".." then acc ++ [comp]
  else if acc ≠ [] then acc.dropLast
  else acc

/-- CPython `posixpath.normpath`: collapse `"."`, empty and resolvable `".."`
components of a path string. -/
def normpath (p : String) : String :=
  if p = "" then "."
  else
    let k := initialSlashes p
    let newComps := (splitSlash p).foldl (normStep (k ≠ 0)) []
    let res := String.mk (List.replicate k '/') ++ joinWith newComps
    if res = "" then "." else res

/-- The nonempty components of the normalized form of a path: where the path
actually resolves to, segment by segment. -/
def pathParts (p : String) : List String :=
  (splitSlash (normpath p)).filter (fun c => c ≠ "")

/-- Is the first component list an initial segment of the second? -/
def leadsTo : List String → List String → Bool
  | [], _ => true
  | _ :: _, [] => false
  | a :: as, b :: bs => a = b && leadsTo as bs

/-- Does path `p` resolve to a location inside (or equal to) `root`? -/
def withinRoot (root p : String) : Bool :=
  leadsTo (pathParts root) (pathParts p)

/-- CPython `posixpath.abspath`: join onto the working directory when the
path is relative, then normalize. -/
def abspath (cwd p : String) : String :=
  normpath (if strBegins p "/" then p else pyJoin cwd p)

/-- Length of the longest common initial segment of two component lists
(CPython `genericpath.commonprefix` on the two lists). -/
def commonLen : List String → List String → Nat
  | a :: as, b :: bs => if a = b then commonLen as bs + 1 else 0
  | _, _ => 0

/-- CPython `posixpath.relpath(path, start)`: compare the nonempty components
of the two absolutized paths, back out of the part of `start` beyond the
common segment with `".."` entries, then descend into the rest of `path`. -/
def relpath (cwd p start : String) : String :=
  let startList := (splitSlash (abspath cwd start)).filter (fun x => x ≠ "")
  let pathList := (splitSlash (abspath cwd p)).filter (fun x => x ≠ "")
  let i := commonLen startList pathList
  let relList := List.replicate (startList.length - i) ".." ++ pathList.drop i
  if relList = [] then "." else joinWith relList

/-- `errno.EACCES`. -/
def EACCES : Nat := 13

/-- `errno.ENOENT` (raised by `open(path, "r+")` on a missing file). -/
def ENOENT : Nat := 2

/-- `os.O_WRONLY`. -/
def O_WRONLY : Nat := 1

/-- `os.O_CREAT`. -/
def O_CREAT : Nat := 64

/-- The result of `os.lstat`, with the OS-specific extension fields the host
also reports (inode, device, block counts, ...), of which `getattr` must
forward only a fixed subset. -/
structure StatResult where
  st_atime : Nat
  st_ctime : Nat
  st_gid : Nat
  st_mode : Nat
  st_mtime : Nat
  st_nlink : Nat
  st_size : Nat
  st_uid : Nat
  st_ino : Nat
  st_dev : Nat
  st_rdev : Nat
  st_blocks : Nat
  st_blksize : Nat
deriving DecidableEq

/-- The result of `os.statvfs`. -/
structure StatVFS where
  f_bavail : Nat
  f_bfree : Nat
  f_blocks : Nat
  f_bsize : Nat
  f_favail : Nat
  f_ffree : Nat
  f_files : Nat
  f_flag : Nat
  f_frsize : Nat
  f_namemax : Nat
deriving DecidableEq

/-- An open descriptor as the host kernel sees it: the file's bytes and the
current seek position. -/
structure FileDesc where
  data : List Nat
  pos : Nat
deriving DecidableEq

/-- The host operating system, as the oracles the embedded methods consult:
`os.access`, `os.lstat`, `os.path.isdir`, `os.listdir`, `os.readlink`,
`os.statvfs`, the backing file contents opened by `truncate`, the table of
open descriptors, and the process working directory used by
`os.path.relpath`. -/
structure Host where
  osAccess : String → Nat → Bool
  lstat : String → Option StatResult
  isdir : String → Bool
  listdir : String → List String
  linkTarget : String → Option String
  statvfs : String → Option StatVFS
  fileBytes : String → Option (List Nat)
  fd : Nat → FileDesc
  cwd : String

/-- A mounted `Passthrough` instance: its only state is the backing root
stored at construction (`__init__`). -/
structure Passthrough where
  root : String
deriving DecidableEq

/-- The host call a forwarded operation issues, with its result where the
operation returns one. `symlinkEff src dst` records `os.symlink(src, dst)`:
a link is created at `dst` whose literal content is `src`. -/
inductive HostEff where
  | accessOk
  | raiseErr (code : Nat)
  | chmodEff (p : String) (mode : Nat)
  | chownEff (p : String) (uid gid : Nat)
  | getattrEff (r : Option (List (String × Nat)))
  | readdirEff (names : List String)
  | readlinkEff (r : Option String)
  | mknodEff (p : String) (mode dev : Nat)
  | rmdirEff (p : String)
  | mkdirEff (p : String) (mode : Nat)
  | statfsEff (r : Option (List (String × Nat)))
  | unlinkEff (p : String)
  | symlinkEff (src dst : String)
  | renameEff (old new : String)
  | linkEff (src dst : String)
  | utimensEff (p : String) (times : Option (Nat × Nat))
  | openEff (p : String) (flags : Nat)
  | createEff (p : String) (flags mode : Nat)
  | readEff (r : List Nat)
  | writeEff (n : Nat)
  | truncateEff (r : Except Nat Unit)
  | fsyncEff (fh : Nat)
  | releaseEff (fh : Nat)

/-- `Passthrough.access`: translate the path, run the host permission check,
and raise `EACCES` exactly when the host check fails. -/
def access (h : Host) (root p : String) (mode : Nat) : Except Nat Unit :=
  let fp := full_path root p
  if h.osAccess fp mode = false then Except.error EACCES else Except.ok ()

/-- `Passthrough.getattr`: `os.lstat` the translated path and build the
fixed eight-key dictionary from its fields. -/
def getattr (h : Host) (root p : String) : Option (List (String × Nat)) :=
  match h.lstat (full_path root p) with
  | none => none
  | some st =>
    some [("st_atime", st.st_atime), ("st_ctime", st.st_ctime), ("st_gid", st.st_gid),
          ("st_mode", st.st_mode), ("st_mtime", st.st_mtime), ("st_nlink", st.st_nlink),
          ("st_size", st.st_size), ("st_uid", st.st_uid)]

/-- `Passthrough.readdir`: start from `[".", ".."]` and extend with the
host's listing when the translated path is a directory. -/
def readdir (h : Host) (root p : String) : List String :=
  let fp := full_path root p
  let dirents := [".", ".."]
  let dirents := if h.isdir fp then dirents ++ h.listdir fp else dirents
  dirents

/-- `Passthrough.readlink`: read the link's literal target; when it is
absolute, rewrite it relative to the backing root, otherwise return it
unchanged. -/
def readlink (h : Host) (root p : String) : Option String :=
  match h.linkTarget (full_path root p) with
  | none => none
  | some pathname =>
    some (if strBegins pathname "/" then relpath h.cwd pathname root else pathname)

/-- `Passthrough.statfs`: `os.statvfs` the translated path and build the
fixed ten-key dictionary from its fields. -/
def statfs (h : Host) (root p : String) : Option (List (String × Nat)) :=
  match h.statvfs (full_path root p) with
  | none => none
  | some stv =>
    some [("f_bavail", stv.f_bavail), ("f_bfree", stv.f_bfree), ("f_blocks", stv.f_blocks),
          ("f_bsize", stv.f_bsize), ("f_favail", stv.f_favail), ("f_ffree", stv.f_ffree),
          ("f_files", stv.f_files), ("f_flag", stv.f_flag), ("f_frsize", stv.f_frsize),
          ("f_namemax", stv.f_namemax)]

/-- `Passthrough.symlink(name, target)`: `os.symlink(name, self._full_path(target))`
— only the second argument goes through the path translator. -/
def symlink (root name target : String) : HostEff :=
  HostEff.symlinkEff name (full_path root target)

/-- `os.lseek(fd, offset, os.SEEK_SET)`. -/
def lseek (fd : FileDesc) (offset : Nat) : FileDesc :=
  { fd with pos := offset }

/-- `os.read(fd, length)`: up to `length` bytes from the current position,
advancing it by the count actually read. -/
def osRead (fd : FileDesc) (length : Nat) : List Nat × FileDesc :=
  let r := (fd.data.drop fd.pos).take length
  (r, { fd with pos := fd.pos + r.length })

/-- `os.write(fd, buf)`: overwrite at the current position (zero-filling any
gap past end-of-file), returning the count written. -/
def osWrite (fd : FileDesc) (buf : List Nat) : Nat × FileDesc :=
  (buf.length,
   { data := fd.data.take fd.pos ++ List.replicate (fd.pos - fd.data.length) 0
       ++ buf ++ fd.data.drop (fd.pos + buf.length),
     pos := fd.pos + buf.length })

/-- `Passthrough.read`: seek to the absolute offset, then read. -/
def read (p : String) (fd : FileDesc) (length offset : Nat) : List Nat × FileDesc :=
  let fd := lseek fd offset
  osRead fd length

/-- `Passthrough.write`: seek to the absolute offset, then write. -/
def write (p : String) (fd : FileDesc) (buf : List Nat) (offset : Nat) : Nat × FileDesc :=
  let fd := lseek fd offset
  osWrite fd buf

/-- `f.truncate(length)` on a Python file: keep the first `length` bytes,
zero-padding when growing. -/
def truncData (data : List Nat) (length : Nat) : List Nat :=
  data.take length ++ List.replicate (length - data.length) 0

/-- The backing tree's file contents by real path. -/
abbrev Fs := String → Option (List Nat)

/-- `Passthrough.truncate`: reopen the translated real path with `"r+"`
(failing with `ENOENT` when it does not exist, creating nothing) and set its
size; the caller-supplied handle is never consulted. -/
def truncate (fs : Fs) (root p : String) (length : Nat) (fh : Option Nat) :
    Except Nat Unit × Fs :=
  let fp := full_path root p
  match fs fp with
  | none => (Except.error ENOENT, fs)
  | some data => (Except.ok (), fun q => if q = fp then some (truncData data length) else fs q)

/-- `Passthrough.flush`: `os.fsync(fh)`. -/
def flush (p : String) (fh : Nat) : HostEff :=
  HostEff.fsyncEff fh

/-- `Passthrough.fsync`: `self.flush(path, fh)` — the data-only flag is
ignored. -/
def fsync (p : String) (fdatasync : Nat) (fh : Nat) : HostEff :=
  flush p fh

/-- One invocation of a `Passthrough` method, with its arguments. -/
inductive FsOp where
  | accessOp (p : String) (mode : Nat)
  | chmodOp (p : String) (mode : Nat)
  | chownOp (p : String) (uid gid : Nat)
  | getattrOp (p : String) (fh : Option Nat)
  | readdirOp (p : String) (fh : Nat)
  | readlinkOp (p : String)
  | mknodOp (p : String) (mode dev : Nat)
  | rmdirOp (p : String)
  | mkdirOp (p : String) (mode : Nat)
  | statfsOp (p : String)
  | unlinkOp (p : String)
  | symlinkOp (name target : String)
  | renameOp (old new : String)
  | linkOp (target name : String)
  | utimensOp (p : String) (times : Option (Nat × Nat))
  | openOp (p : String) (flags : Nat)
  | createOp (p : String) (mode : Nat)
  | readOp (p : String) (length offset fh : Nat)
  | writeOp (p : String) (buf : List Nat) (offset fh : Nat)
  | truncateOp (p : String) (length : Nat) (fh : Option Nat)
  | flushOp (p : String) (fh : Nat)
  | releaseOp (p : String) (fh : Nat)
  | fsyncOp (p : String) (fdatasync fh : Nat)

/-- Dispatch one `Passthrough` method call: each branch is the method body
(translate the path through `self.root`, issue the host call), returning the
instance as the methods leave it together with the issued host effect. -/
def runOp (h : Host) (self : Passthrough) : FsOp → Passthrough × HostEff
  | .accessOp p mode =>
    (self, match access h self.root p mode with
      | Except.ok _ => HostEff.accessOk
      | Except.error e => HostEff.raiseErr e)
  | .chmodOp p mode => (self, HostEff.chmodEff (full_path self.root p) mode)
  | .chownOp p uid gid => (self, HostEff.chownEff (full_path self.root p) uid gid)
  | .getattrOp p _ => (self, HostEff.getattrEff (getattr h self.root p))
  | .readdirOp p _ => (self, HostEff.readdirEff (readdir h self.root p))
  | .readlinkOp p => (self, HostEff.readlinkEff (readlink h self.root p))
  | .mknodOp p mode dev => (self, HostEff.mknodEff (full_path self.root p) mode dev)
  | .rmdirOp p => (self, HostEff.rmdirEff (full_path self.root p))
  | .mkdirOp p mode => (self, HostEff.mkdirEff (full_path self.root p) mode)
  | .statfsOp p => (self, HostEff.statfsEff (statfs h self.root p))
  | .unlinkOp p => (self, HostEff.unlinkEff (full_path self.root p))
  | .symlinkOp name target => (self, symlink self.root name target)
  | .renameOp old new => (self, HostEff.renameEff (full_path self.root old) (full_path self.root new))
  | .linkOp target name => (self, HostEff.linkEff (full_path self.root target) (full_path self.root name))
  | .utimensOp p times => (self, HostEff.utimensEff (full_path self.root p) times)
  | .openOp p flags => (self, HostEff.openEff (full_path self.root p) flags)
  | .createOp p mode => (self, HostEff.createEff (full_path self.root p) (Nat.lor O_WRONLY O_CREAT) mode)
  | .readOp p length offset fh => (self, HostEff.readEff (read p (h.fd fh) length offset).1)
  | .writeOp p buf offset fh => (self, HostEff.writeEff (write p (h.fd fh) buf offset).1)
  | .truncateOp p length fh => (self, HostEff.truncateEff (truncate h.fileBytes self.root p length fh).1)
  | .flushOp p fh => (self, flush p fh)
  | .releaseOp p fh => (self, HostEff.releaseEff fh)
  | .fsyncOp p fdatasync fh => (self, fsync p fdatasync fh)

/-- The literal content stored by a symlink-creating host call. -/
def linkLiteral : HostEff → Option String
  | HostEff.symlinkEff src _ => some src
  | _ => none

/-- The location at which a symlink-creating host call creates the link. -/
def linkLocation : HostEff → Option String
  | HostEff.symlinkEff _ dst => some dst
  | _ => none

/-- A concrete `os.lstat` result used by the witnesses. -/
def stEx : StatResult :=
  ⟨10, 11, 12, 13, 14, 2, 5, 15, 99, 7, 0, 8, 4096⟩

/-- A concrete host used by the witnesses. -/
def hostEx : Host :=
  ⟨fun _ _ => false, fun _ => some stEx, fun _ => true, fun _ => ["a.txt"],
   fun _ => some "/repo/sub/f", fun _ => none, fun _ => none, fun _ => ⟨[104, 105], 9⟩, "/"⟩

/-- A backing tree with no files, used by the witnesses. -/
def emptyFs : Fs := fun _ => none

/-- C1: the claim says the translated real path never falls outside the
Backing Root, even for virtual paths with parent-directory segments. The
translator does not enforce this: against root `"/repo"` the virtual path
`"/../etc"` translates to `"/repo/../etc"`, which resolves to `"/etc"`,
outside the root. -/
theorem full_path_escapes_root :
  full_path "/repo" "/../etc" = "/repo/../etc"
  ∧ normpath (full_path "/repo" "/../etc") = "/etc"
  ∧ withinRoot "/repo" (full_path "/repo" "/../etc") = false :=
  ⟨rfl, rfl, rfl⟩

/-- C2: read and write first seek the descriptor to the caller's absolute
offset — so the result never depends on any prior position — then read
returns the bytes from that offset (exactly `len` of them, or fewer at
end-of-file: the count is `min len (size - off)`), leaving the position right
after the transfer, and write returns the full buffer length. -/
theorem read_write_offset_spec (p : String) (data buf : List Nat) (a b len off : Nat) :
  read p ⟨data, a⟩ len off = read p ⟨data, b⟩ len off
  ∧ (read p ⟨data, a⟩ len off).1 = (data.drop off).take len
  ∧ (read p ⟨data, a⟩ len off).1.length = min len (data.length - off)
  ∧ (read p ⟨data, a⟩ len off).2.pos = off + (read p ⟨data, a⟩ len off).1.length
  ∧ write p ⟨data, a⟩ buf off = write p ⟨data, b⟩ buf off
  ∧ (write p ⟨data, a⟩ buf off).1 = buf.length := by
  refine ⟨rfl, rfl, ?_, rfl, rfl, rfl⟩
  simp [read, lseek, osRead]

/-- C3: for every virtual path, the listing starts with the two conventional
entries `"."` and `".."`; when the translated real path is a directory they
are followed by the host's children in host order, and otherwise the listing
is exactly the two conventional entries, with no error. -/
theorem readdir_spec (h : Host) (root p : String) :
  readdir h root p
    = [".", ".."] ++ (if h.isdir (full_path root p) then h.listdir (full_path root p) else [])
  ∧ (readdir h root p).take 2 = [".", ".."] := by
  refine ⟨?_, ?_⟩ <;> simp only [readdir] <;> split <;> simp

/-- C4: whenever the host link-aware stat of the translated real path
succeeds, `getattr` returns the dictionary with exactly the eight contract
keys, each bound to the corresponding `lstat` field, and no OS-specific
extension field (inode, device, blocks, ...) appears among the keys. -/
theorem getattr_spec (h : Host) (root p : String) (st : StatResult)
    (hst : h.lstat (full_path root p) = some st) :
  getattr h root p
    = some [("st_atime", st.st_atime), ("st_ctime", st.st_ctime), ("st_gid", st.st_gid),
            ("st_mode", st.st_mode), ("st_mtime", st.st_mtime), ("st_nlink", st.st_nlink),
            ("st_size", st.st_size), ("st_uid", st.st_uid)]
  ∧ (getattr h root p).map (fun l => l.map Prod.fst)
    = some ["st_atime", "st_ctime", "st_gid", "st_mode", "st_mtime",
            "st_nlink", "st_size", "st_uid"] := by
  simp [getattr, hst]

/-- Witness for C4 at a concrete host whose `lstat` always succeeds. -/
theorem getattr_spec_witness :
  getattr hostEx "/repo" "/a.txt"
    = some [("st_atime", 10), ("st_ctime", 11), ("st_gid", 12), ("st_mode", 13),
            ("st_mtime", 14), ("st_nlink", 2), ("st_size", 5), ("st_uid", 15)] :=
  (getattr_spec hostEx "/repo" "/a.txt" stEx rfl).1

/-- C5: whenever the host reports the link's literal target, `readlink`
returns it rewritten by `relpath` against the Backing Root when it is
absolute (begins with the separator), and unchanged when it is relative. -/
theorem readlink_spec (h : Host) (root p target : String)
    (ht : h.linkTarget (full_path root p) = some target) :
  readlink h root p
    = some (if strBegins target "/" then relpath h.cwd target root else target) := by
  simp [readlink, ht]

/-- Witness for C5: an absolute target under the root comes back relative. -/
theorem readlink_spec_witness :
  readlink hostEx "/repo" "/lnk" = some "sub/f" := by
  rw [readlink_spec hostEx "/repo" "/lnk" "/repo/sub/f" rfl]
  rfl

/-- C6: the permission check fails with `EACCES` exactly when the host check
on the translated real path fails for the requested mode bits, never with any
other code, and returns without error exactly when the host check passes. -/
theorem access_spec (h : Host) (root p : String) (mode : Nat) :
  access h root p mode
    = (if h.osAccess (full_path root p) mode then Except.ok () else Except.error EACCES)
  ∧ (access h root p mode = Except.error EACCES ↔ h.osAccess (full_path root p) mode = false)
  ∧ (access h root p mode = Except.ok () ↔ h.osAccess (full_path root p) mode = true) := by
  unfold access
  cases hb : h.osAccess (full_path root p) mode <;> simp [hb]

/-- C7: `fsync` is the same operation as `flush` on the same path and handle
— the data-only flag is ignored and both issue the one full-sync host call. -/
theorem fsync_flush_spec (p : String) (fdatasync fh : Nat) :
  fsync p fdatasync fh = flush p fh ∧ fsync p fdatasync fh = HostEff.fsyncEff fh :=
  ⟨rfl, rfl⟩

/-- C8: every operation of the `Passthrough` filesystem returns the instance
with its backing root exactly as constructed — the root is immutable across
attribute, namespace, link and open-file operations alike. -/
theorem root_immutable (h : Host) (self : Passthrough) (op : FsOp) :
  (runOp h self op).1 = self ∧ (runOp h self op).1.root = self.root := by
  cases op <;> exact ⟨rfl, rfl⟩

/-- C9: `symlink` translates only the path at which the link is created; the
link-target string is written into the backing tree verbatim — it is exactly
the caller's string, and does not depend on the Backing Root at all. -/
theorem symlink_verbatim (root root2 name target : String) :
  linkLiteral (symlink root name target) = some name
  ∧ linkLocation (symlink root name target) = some (full_path root target)
  ∧ linkLiteral (symlink root name target) = linkLiteral (symlink root2 name target) :=
  ⟨rfl, rfl, rfl⟩

/-- C10: truncate ignores the caller-supplied handle entirely (the result is
the same whatever handle, if any, is passed), and on a translated real path
with no backing file it fails with `ENOENT`, leaving the backing tree exactly
as it was — no file is created. -/
theorem truncate_spec :
  (∀ (fs : Fs) (root p : String) (len : Nat) (fh fh2 : Option Nat),
      truncate fs root p len fh = truncate fs root p len fh2)
  ∧ (∀ (fs : Fs) (root p : String) (len : Nat) (fh : Option Nat),
      fs (full_path root p) = none →
        truncate fs root p len fh = (Except.error ENOENT, fs)) := by
  constructor
  · intro fs root p len fh fh2
    rfl
  · intro fs root p len fh hmiss
    simp [truncate, hmiss]

/-- Witness for C10: on an empty backing tree, truncating `"/a.txt"` fails
with `ENOENT`, changes nothing, and ignores the supplied handle. -/
theorem truncate_spec_witness :
  truncate emptyFs "/repo" "/a.txt" 3 (some 7) = (Except.error ENOENT, emptyFs)
  ∧ truncate emptyFs "/repo" "/a.txt" 3 (some 7) = truncate emptyFs "/repo" "/a.txt" 3 none :=
  ⟨truncate_spec.2 emptyFs "/repo" "/a.txt" 3 (some 7) rfl,
   truncate_spec.1 emptyFs "/repo" "/a.txt" 3 (some 7) none⟩

end FuseRepo




